import Mathlib

/- Shallow embedding of the audio-fingerprinting and similarity-search core of
the stemplayer repository (rust/src of flutter_stem_player).  f64 arithmetic
is modelled by exact real arithmetic; machine-integer casts keep their Rust
truncation/saturation semantics; fallible code returns Except/Option, where
`none` marks a Rust panic or a non-terminating loop. -/

namespace StemPlayer

/-- Rust `x as usize` on an f64: truncation toward zero, saturating below at 0
(the values cast in this code never reach the upper bound). -/
noncomputable def f64toUsize (x : ℝ) : ℕ := Int.toNat ⌊x⌋

/-- Rust `x as u32` on an f64: truncation toward zero, saturating into the u32 range. -/
noncomputable def f64toU32 (x : ℝ) : ℕ := min (Int.toNat ⌊x⌋) (2 ^ 32 - 1)

/-- Rust `x as u8` on an f64: truncation toward zero, saturating into the u8 range. -/
noncomputable def f64toU8 (x : ℝ) : ℕ := min (Int.toNat ⌊x⌋) 255

/-- Rust `x as i32` on an f64: truncation toward zero, saturating into the i32 range. -/
noncomputable def f64toI32 (x : ℝ) : ℤ :=
  max (-(2 ^ 31)) (min (if 0 ≤ x then ⌊x⌋ else -⌊-x⌋) (2 ^ 31 - 1))

/-- Iterator `(pos..a).step_by(h)` unrolled with explicit fuel; one fuel unit per
yielded element, so `a` units suffice whenever `1 ≤ h`. -/
def stepByAux (a h : ℕ) : ℕ → ℕ → List ℕ
  | 0, _ => []
  | fuel + 1, pos => if pos < a then pos :: stepByAux a h fuel (pos + h) else []

/-- Rust iterator `(0..a).step_by(h)` (for the frame loops, where `h ≥ 1`). -/
def rangeStepBy (a h : ℕ) : List ℕ := stepByAux a h a 0

/-- Real DFT of a real-valued frame, real part of bin `k`
(what `rustfft`'s forward transform computes, in exact arithmetic). -/
noncomputable def dftRe (x : List ℝ) (k : ℕ) : ℝ :=
  (((List.range x.length).map fun j =>
    x.getD j 0 * Real.cos (2 * Real.pi * j * k / x.length))).sum

/-- Real DFT of a real-valued frame, imaginary part of bin `k`. -/
noncomputable def dftIm (x : List ℝ) (k : ℕ) : ℝ :=
  -(((List.range x.length).map fun j =>
    x.getD j 0 * Real.sin (2 * Real.pi * j * k / x.length))).sum

/-- `Complex::norm_sqr` of DFT bin `k` (the power spectrum entry). -/
noncomputable def dftNormSq (x : List ℝ) (k : ℕ) : ℝ := dftRe x k ^ 2 + dftIm x k ^ 2

/-- `Complex::norm` of DFT bin `k` (the magnitude spectrum entry). -/
noncomputable def dftNorm (x : List ℝ) (k : ℕ) : ℝ := Real.sqrt (dftNormSq x k)

/-- Hann window coefficient `0.5 * (1 - cos(2*pi*i/(n_fft-1)))`. -/
noncomputable def hannWindow (n_fft i : ℕ) : ℝ :=
  0.5 * (1 - Real.cos (2 * Real.pi * i / ((n_fft : ℝ) - 1)))

/-- The windowed frame `samples[start..start+n_fft]` with the Hann window applied
(all call sites keep `start + n_fft` within bounds, so `getD`'s default is unused). -/
noncomputable def windowedFrame (samples : List ℝ) (n_fft start : ℕ) : List ℝ :=
  (List.range n_fft).map fun i => samples.getD (start + i) 0 * hannWindow n_fft i

/-- Error type of the library (`AudioPaletteError` in `lib.rs`), restricted to the
variants the embedded code can produce. -/
inductive AudioPaletteError where
  | AudioLoadError (msg : String)
  | FingerprintError (msg : String)
  | MidiError (msg : String)
deriving DecidableEq, Repr

/-- `MfccExtractor` (fingerprint/mfcc.rs): configuration fields. -/
structure MfccExtractor where
  n_mfcc : ℕ
  n_fft : ℕ
  n_mels : ℕ

/-- `MfccExtractor::new(n_mfcc, n_fft)` fixes `n_mels = 40`. -/
def MfccExtractor.new (n_mfcc n_fft : ℕ) : MfccExtractor := ⟨n_mfcc, n_fft, 40⟩

/-- `hz_to_mel`: `2595 * log10(1 + hz/700)`. -/
noncomputable def hzToMel (hz : ℝ) : ℝ := 2595 * Real.logb 10 (1 + hz / 700)

/-- `mel_to_hz`: `700 * (10^(mel/2595) - 1)`. -/
noncomputable def melToHz (mel : ℝ) : ℝ := 700 * ((10 : ℝ) ^ (mel / 2595) - 1)

/-- `MfccExtractor::compute_mel_filterbank`: `n_mels` triangular filters over the
`n_fft/2 + 1` one-sided FFT bins.  The rising slope covers `j ∈ [start, center)`
(set only when `center > start`), the falling slope `j ∈ [center, end)`
(set only when `end > center`); both use Rust usize subtraction before the f64 cast. -/
noncomputable def MfccExtractor.compute_mel_filterbank (ex : MfccExtractor)
    (sample_rate : ℕ) : List (List ℝ) :=
  let n_bins := ex.n_fft / 2 + 1
  let f_min : ℝ := 0
  let f_max : ℝ := (sample_rate : ℝ) / 2
  let mel_min := hzToMel f_min
  let mel_max := hzToMel f_max
  let mel_points := (List.range (ex.n_mels + 2)).map fun i =>
    mel_min + (mel_max - mel_min) * i / ((ex.n_mels : ℝ) + 1)
  let hz_points := mel_points.map melToHz
  let bin_points := hz_points.map fun f =>
    min (f64toUsize (f * ex.n_fft / sample_rate)) (n_bins - 1)
  (List.range ex.n_mels).map fun i =>
    let s := bin_points.getD i 0
    let c := bin_points.getD (i + 1) 0
    let e := bin_points.getD (i + 2) 0
    (List.range n_bins).map fun j =>
      if s ≤ j ∧ j < c ∧ s < c then ((j - s : ℕ) : ℝ) / ((c - s : ℕ) : ℝ)
      else if c ≤ j ∧ j < e ∧ c < e then ((e - j : ℕ) : ℝ) / ((e - c : ℕ) : ℝ)
      else 0

/-- `MfccExtractor::dct`: DCT-II scaled by `sqrt(2/N)`, then the first coefficient
is multiplied by `sqrt(0.5)`.  (Rust indexes `result[0]`, which panics on an empty
input; the only call site passes the length-`n_mels` mel spectrum.) -/
noncomputable def MfccExtractor.dct (x : List ℝ) : List ℝ :=
  let n := x.length
  let result := (List.range n).map fun k =>
    (((List.range n).map fun i =>
      x.getD i 0 * Real.cos (Real.pi * k * (2 * i + 1) / (2 * n))).sum) *
      Real.sqrt (2 / n)
  match result with
  | [] => []
  | r0 :: rest => r0 * Real.sqrt 0.5 :: rest

/-- Frame starts of `MfccExtractor::extract`:
`(0..samples.len().saturating_sub(n_fft)).step_by(n_fft / 4)`
(ℕ subtraction is Rust's `saturating_sub`). -/
def MfccExtractor.frameStarts (ex : MfccExtractor) (len : ℕ) : List ℕ :=
  rangeStepBy (len - ex.n_fft) (ex.n_fft / 4)

/-- `MfccExtractor::extract`: per-frame windowed FFT, power spectrum over the
one-sided bins, mel filterbank, `ln(max(·, 1e-10))`, DCT, keep `n_mfcc`
coefficients; then mean and population std per coefficient.  Fails when the
input is shorter than `n_fft`, or when the frame loop yields no frames. -/
noncomputable def MfccExtractor.extract (ex : MfccExtractor) (samples : List ℝ)
    (sample_rate : ℕ) : Except AudioPaletteError (List ℝ × List ℝ) :=
  if samples.length < ex.n_fft then
    .error (.FingerprintError "Audio too short for MFCC extraction")
  else
    let filterbank := ex.compute_mel_filterbank sample_rate
    let all_mfccs : List (List ℝ) := (ex.frameStarts samples.length).map fun start =>
      let frame := windowedFrame samples ex.n_fft start
      let power := (List.range (ex.n_fft / 2 + 1)).map fun k => dftNormSq frame k
      let mel_spec := filterbank.map fun filter =>
        Real.log (max (((filter.zip power).map fun p => p.1 * p.2).sum) (1 / 10 ^ 10))
      (MfccExtractor.dct mel_spec).take ex.n_mfcc
    if all_mfccs.isEmpty then
      .error (.FingerprintError "No frames extracted")
    else
      let n_frames : ℝ := all_mfccs.length
      let mean := (List.range ex.n_mfcc).map fun i =>
        ((all_mfccs.map fun m => m.getD i 0).sum) / n_frames
      let std := (List.range ex.n_mfcc).map fun i =>
        Real.sqrt (((all_mfccs.map fun m => (m.getD i 0 - mean.getD i 0) ^ 2).sum) / n_frames)
      .ok (mean, std)

/-- `SpectralFeatures` (fingerprint/spectral.rs). -/
structure SpectralFeatures where
  centroid : ℝ
  bandwidth : ℝ
  rolloff : ℝ

/-- `SpectralExtractor` configuration. -/
structure SpectralExtractor where
  n_fft : ℕ
  hop_length : ℕ

/-- `SpectralExtractor::new`. -/
def SpectralExtractor.new (n_fft hop_length : ℕ) : SpectralExtractor := ⟨n_fft, hop_length⟩

/-- Frame starts of `SpectralExtractor::extract`:
`(0..samples.len().saturating_sub(n_fft)).step_by(hop_length)`. -/
def SpectralExtractor.frameStarts (ex : SpectralExtractor) (len : ℕ) : List ℕ :=
  rangeStepBy (len - ex.n_fft) ex.hop_length

/-- The rolloff scan: walk the magnitudes accumulating `cumsum`, return the first
`freq_bins[i]` with `cumsum ≥ threshold`, else the initial value (the last bin). -/
noncomputable def rolloffScan (freq_bins : List ℝ) (threshold : ℝ) :
    List ℝ → ℕ → ℝ → ℝ → ℝ
  | [], _, _, roll => roll
  | m :: rest, i, cumsum, roll =>
    if cumsum + m ≥ threshold then freq_bins.getD i 0
    else rolloffScan freq_bins threshold rest (i + 1) (cumsum + m) roll

/-- `SpectralExtractor::extract`: per retained frame (total magnitude `> 1e-10`)
the spectral centroid, bandwidth and 85%-rolloff; aggregated by arithmetic mean,
with an empty retained set giving 0.  Inputs shorter than `n_fft` yield the zero
record.  (The Rust function always returns `Ok`; the wrapper is omitted.) -/
noncomputable def SpectralExtractor.extract (ex : SpectralExtractor) (samples : List ℝ)
    (sample_rate : ℕ) : SpectralFeatures :=
  if samples.length < ex.n_fft then ⟨0, 0, 0⟩
  else
    let freq_bins := (List.range (ex.n_fft / 2 + 1)).map fun i =>
      (i : ℝ) * sample_rate / ex.n_fft
    let per_frame : List (Option (ℝ × ℝ × ℝ)) :=
      (ex.frameStarts samples.length).map fun start =>
        let frame := windowedFrame samples ex.n_fft start
        let magnitudes := (List.range (ex.n_fft / 2 + 1)).map fun k => dftNorm frame k
        let total_energy := magnitudes.sum
        if total_energy > 1 / 10 ^ 10 then
          let centroid := (((freq_bins.zip magnitudes).map fun p => p.1 * p.2).sum) /
            total_energy
          let bandwidth := Real.sqrt
            ((((freq_bins.zip magnitudes).map fun p => (p.1 - centroid) ^ 2 * p.2).sum) /
              total_energy)
          let threshold := 0.85 * total_energy
          let rolloff := rolloffScan freq_bins threshold magnitudes 0 0
            (freq_bins.getLastD 0)
          some (centroid, bandwidth, rolloff)
        else none
    let retained := per_frame.filterMap id
    let mean : List ℝ → ℝ := fun v => if v.isEmpty then 0 else v.sum / v.length
    ⟨mean (retained.map fun t => t.1), mean (retained.map fun t => t.2.1),
      mean (retained.map fun t => t.2.2)⟩

/-- `AudioFingerprint` (fingerprint/mod.rs). -/
structure AudioFingerprint where
  duration : ℝ
  sample_rate : ℕ
  mfcc_mean : List ℝ
  mfcc_std : List ℝ
  spectral_centroid : ℝ
  spectral_bandwidth : ℝ
  spectral_rolloff : ℝ
  rms_mean : ℝ
  rms_std : ℝ
  zero_crossing_rate : ℝ
  chroma_mean : List ℝ

/-- `AudioFingerprint::to_vector`: mfcc_mean ++ mfcc_std, the three spectral
statistics divided by 10000, the three energy features, then chroma_mean. -/
noncomputable def AudioFingerprint.to_vector (fp : AudioFingerprint) : List ℝ :=
  fp.mfcc_mean ++ fp.mfcc_std ++
    [fp.spectral_centroid / 10000, fp.spectral_bandwidth / 10000,
     fp.spectral_rolloff / 10000, fp.rms_mean, fp.rms_std, fp.zero_crossing_rate] ++
    fp.chroma_mean

/-- The dot product `v1.iter().zip(v2.iter()).map(|(a, b)| a * b).sum()`. -/
noncomputable def vecDot (v1 v2 : List ℝ) : ℝ := ((v1.zip v2).map fun p => p.1 * p.2).sum

/-- The Euclidean norm `v.iter().map(|x| x * x).sum::<f64>().sqrt()`. -/
noncomputable def vecNorm (v : List ℝ) : ℝ := Real.sqrt ((v.map fun x => x * x).sum)

/-- `AudioFingerprint::similarity`: 0 on mismatched lengths, 0 when either norm is
zero, else `((cosine + 1) / 2 * 100).max(0.0).min(100.0)`. -/
noncomputable def AudioFingerprint.similarity (fp other : AudioFingerprint) : ℝ :=
  let v1 := fp.to_vector
  let v2 := other.to_vector
  if v1.length ≠ v2.length then 0
  else
    let dot := vecDot v1 v2
    let norm1 := vecNorm v1
    let norm2 := vecNorm v2
    if norm1 = 0 ∨ norm2 = 0 then 0
    else
      let cosine := dot / (norm1 * norm2)
      min (max ((cosine + 1) / 2 * 100) 0) 100

/-- `AudioData` (audio.rs): mono samples, declared sample rate, channel count and
duration in seconds.  (Decoding itself is I/O and is modelled by quantifying over
the loaded data.) -/
structure AudioData where
  samples : List ℝ
  sample_rate : ℕ
  channels : ℕ
  duration : ℝ

/-- `AudioData::from_samples`: wraps a PCM buffer; `duration = len / sample_rate`. -/
noncomputable def AudioData.from_samples (samples : List ℝ) (sample_rate : ℕ) : AudioData :=
  ⟨samples, sample_rate, 1, (samples.length : ℝ) / sample_rate⟩

/-- `Fingerprinter` (fingerprint/mod.rs): `n_mfcc`, `hop_length`, `n_fft`. -/
structure Fingerprinter where
  n_mfcc : ℕ
  hop_length : ℕ
  n_fft : ℕ

/-- `Fingerprinter::default() = Fingerprinter::new(13, 512, 2048)`. -/
def Fingerprinter.default : Fingerprinter := ⟨13, 512, 2048⟩

/-- `chroma[chroma_bin] += v`, as in-place update of a 12-element vector
(the bin index is always `< 12` at the call site). -/
def updateAdd : List ℝ → ℕ → ℝ → List ℝ
  | [], _, _ => []
  | x :: xs, 0, v => (x + v) :: xs
  | x :: xs, n + 1, v => x :: updateAdd xs n v

/-- `Fingerprinter::compute_rms`: frames start at every multiple of `hop_length`
below `len`; each frame is clipped to the buffer end and skipped when shorter
than 64 samples; output is mean and population std of the per-frame RMS values. -/
noncomputable def Fingerprinter.compute_rms (fp : Fingerprinter) (samples : List ℝ) :
    ℝ × ℝ :=
  let rms_values := (rangeStepBy samples.length fp.hop_length).filterMap fun start =>
    let endIdx := min (start + fp.n_fft) samples.length
    let frameLen := endIdx - start
    if frameLen < 64 then none
    else
      let sum_sq : ℝ := ((List.range frameLen).map fun i =>
        samples.getD (start + i) 0 ^ 2).sum
      some (Real.sqrt (sum_sq / (frameLen : ℝ)))
  if rms_values.isEmpty then (0, 0)
  else
    let mean := rms_values.sum / (rms_values.length : ℝ)
    let variance := ((rms_values.map fun x => (x - mean) ^ 2).sum) / (rms_values.length : ℝ)
    (mean, Real.sqrt variance)

/-- `Fingerprinter::compute_zero_crossing_rate`: sign changes (0 counted as
non-negative) divided by `len - 1`; inputs shorter than 2 give 0. -/
noncomputable def Fingerprinter.compute_zero_crossing_rate (samples : List ℝ) : ℝ :=
  if samples.length < 2 then 0
  else
    (((List.range (samples.length - 1)).filter fun i =>
      decide ((0 ≤ samples.getD (i + 1) 0) ≠ (0 ≤ samples.getD i 0))).length : ℝ) /
      ((samples.length - 1 : ℕ) : ℝ)

/-- Frame starts of `Fingerprinter::compute_chroma`:
`(0..samples.len() - n_fft).step_by(hop_length)` (only reached when `len ≥ n_fft`,
so the ℕ subtraction agrees with Rust). -/
def Fingerprinter.chromaFrameStarts (fp : Fingerprinter) (len : ℕ) : List ℕ :=
  rangeStepBy (len - fp.n_fft) fp.hop_length

/-- The frame loop of `Fingerprinter::compute_chroma`: starting from the zero
bins, every frame accumulates, for each FFT bin `i ∈ [0, n_fft/2)` with positive
frequency, the magnitude into `((midi as i32 % 12 + 12) % 12) as usize` where
`midi = 12*log2(freq/440) + 69`. -/
noncomputable def Fingerprinter.chromaAccum (fp : Fingerprinter) (samples : List ℝ)
    (sample_rate : ℕ) : List ℝ :=
  (fp.chromaFrameStarts samples.length).foldl (fun acc start =>
    let frame := windowedFrame samples fp.n_fft start
    (List.range (fp.n_fft / 2)).foldl (fun acc2 (i : ℕ) =>
      let freq : ℝ := (i : ℝ) * (sample_rate : ℝ) / (fp.n_fft : ℝ)
      if freq > 0 then
        let midi := 12 * Real.logb 2 (freq / 440) + 69
        let chroma_bin := (Int.tmod (Int.tmod (f64toI32 midi) 12 + 12) 12).toNat
        updateAdd acc2 chroma_bin (dftNorm frame i)
      else acc2) acc) (List.replicate 12 0)

/-- `Fingerprinter::compute_chroma`: the accumulated 12 bins; afterwards, when at
least one frame was seen and the maximal bin is positive, every bin is divided by
that maximum.  Inputs shorter than `n_fft` give the all-zero vector. -/
noncomputable def Fingerprinter.compute_chroma (fp : Fingerprinter) (samples : List ℝ)
    (sample_rate : ℕ) : List ℝ :=
  let n_chroma := 12
  let chroma0 : List ℝ := List.replicate n_chroma 0
  if samples.length < fp.n_fft then chroma0
  else
    let starts := fp.chromaFrameStarts samples.length
    let chroma := fp.chromaAccum samples sample_rate
    if starts.length > 0 then
      let mx := chroma.foldl max 0
      if mx > 0 then chroma.map fun c => c / mx else chroma
    else chroma

/-- `Fingerprinter::extract`: rejects empty input, then combines the MFCC,
spectral, energy and chroma features into an `AudioFingerprint`. -/
noncomputable def Fingerprinter.extract (fp : Fingerprinter) (adata : AudioData) :
    Except AudioPaletteError AudioFingerprint :=
  if adata.samples.isEmpty then .error (.FingerprintError "Empty audio")
  else
    match (MfccExtractor.new fp.n_mfcc fp.n_fft).extract adata.samples adata.sample_rate with
    | .error e => .error e
    | .ok (mfcc_mean, mfcc_std) =>
      let spectral := (SpectralExtractor.new fp.n_fft fp.hop_length).extract
        adata.samples adata.sample_rate
      let rms := fp.compute_rms adata.samples
      let zcr := Fingerprinter.compute_zero_crossing_rate adata.samples
      let chroma_mean := fp.compute_chroma adata.samples adata.sample_rate
      .ok ⟨adata.duration, adata.sample_rate, mfcc_mean, mfcc_std, spectral.centroid,
        spectral.bandwidth, spectral.rolloff, rms.1, rms.2, zcr, chroma_mean⟩

/-- `Fingerprinter::extract_from_samples`. -/
noncomputable def Fingerprinter.extract_from_samples (fp : Fingerprinter)
    (samples : List ℝ) (sample_rate : ℕ) : Except AudioPaletteError AudioFingerprint :=
  fp.extract (AudioData.from_samples samples sample_rate)

/-- `SoundRecord` (lib.rs), the fields the search engine reads. -/
structure SoundRecord where
  id : ℤ
  filepath : String
  filename : String
  duration : ℝ
  sample_rate : ℕ

/-- `MatchResult` (lib.rs). -/
structure MatchResult where
  sound_id : ℤ
  filepath : String
  filename : String
  score : ℝ
  match_start : ℝ
  match_end : ℝ
  file_duration : ℝ

/-- The database contents the search engine observes: the materialized
`get_all_fingerprints()` rows and the `get_sound(id)` lookup.  (The SQL layer
itself is out of scope; claims quantify over these contents.) -/
structure DbModel where
  fingerprints : List (ℤ × AudioFingerprint)
  getSound : ℤ → Option SoundRecord

/-- `window_samples = (query_duration * audio.sample_rate as f64) as usize`
in `find_best_segment` (Rust f64→usize cast truncates toward zero). -/
noncomputable def wSamplesOf (query_duration : ℝ) (sample_rate : ℕ) : ℕ :=
  f64toUsize (query_duration * sample_rate)

/-- The hop the sliding-window branch of `find_best_segment` actually uses:
`hop_samples = window_samples / 4`; `none` when `hop_samples = 0`, where Rust's
`audio.samples.len() / hop_samples` panics with a division by zero; otherwise
`(len - window_samples) / 50` when `len / hop_samples > 50`, else `hop_samples`. -/
def actualHopOf (len window_samples : ℕ) : Option ℕ :=
  if window_samples / 4 = 0 then none
  else some (if len / (window_samples / 4) > 50 then (len - window_samples) / 50
    else window_samples / 4)

/-- The `while pos + window_samples <= len` loop of `find_best_segment`, carrying
`(best_score, best_start, best_end)`.  One fuel unit per iteration; `none` means
the fuel ran out, which (with the fuel the caller supplies) only happens when the
Rust loop does not terminate. -/
noncomputable def segLoop (query_fp : AudioFingerprint) (samples : List ℝ)
    (sample_rate : ℕ) (w hop : ℕ) : ℕ → ℕ → ℝ × ℝ × ℝ → Option (ℝ × ℝ × ℝ)
  | 0, _, _ => none
  | fuel + 1, pos, st =>
    if pos + w ≤ samples.length then
      let st' :=
        match Fingerprinter.default.extract_from_samples
            ((samples.drop pos).take w) sample_rate with
        | .ok segment_fp =>
          let score := query_fp.similarity segment_fp
          if score > st.1 then
            (score, (pos : ℝ) / (sample_rate : ℝ), ((pos + w : ℕ) : ℝ) / (sample_rate : ℝ))
          else st
        | .error _ => st
      segLoop query_fp samples sample_rate w hop fuel (pos + hop) st'
    else some st

/-- `SearchEngine::find_best_segment`, given the already-loaded audio (decoding is
I/O).  `none` subsumes every way the Rust call produces no `MatchResult` for the
caller's `.ok()` filter: a fingerprint-extraction `Err` on the whole file, the
division-by-zero panic when `hop_samples = 0`, and a non-terminating sliding loop. -/
noncomputable def findBestSegmentAudio (query_fp : AudioFingerprint)
    (adata : AudioData) (sound : SoundRecord) : Option MatchResult :=
  let query_duration := query_fp.duration
  if query_duration ≤ 0 then
    some ⟨sound.id, sound.filepath, sound.filename, 0, 0, sound.duration, sound.duration⟩
  else if query_duration ≥ adata.duration then
    match Fingerprinter.default.extract adata with
    | .error _ => none
    | .ok fp =>
      let score := query_fp.similarity fp
      some ⟨sound.id, sound.filepath, sound.filename, score, 0, adata.duration,
        adata.duration⟩
  else
    let window_samples := wSamplesOf query_duration adata.sample_rate
    match actualHopOf adata.samples.length window_samples with
    | none => none
    | some actual_hop =>
      match segLoop query_fp adata.samples adata.sample_rate window_samples actual_hop
          (adata.samples.length + 2) 0 (0, 0, query_duration) with
      | none => none
      | some (best_score, best_start, best_end) =>
        some ⟨sound.id, sound.filepath, sound.filename, best_score, best_start,
          best_end, adata.duration⟩

/-- Descending-score comparator used by both queries
(`b.partial_cmp(&a)`, scores are never NaN in the real-valued model). -/
noncomputable def scoreDesc (a b : ℤ × ℝ) : Bool := decide (b.2 ≤ a.2)

/-- Descending-score comparator on `MatchResult`s. -/
noncomputable def matchScoreDesc (a b : MatchResult) : Bool := decide (b.score ≤ a.score)

/-- `SearchEngine::find_similar`: score every stored fingerprint, keep those with
`score ≥ threshold`, sort descending, truncate to `max_results`, and emit a
whole-file `MatchResult` for every id still present in the store. -/
noncomputable def find_similar (query_fp : AudioFingerprint) (db : DbModel)
    (threshold : ℝ) (max_results : ℕ) : List MatchResult :=
  let scored := db.fingerprints.filterMap fun p =>
    let score := query_fp.similarity p.2
    if score ≥ threshold then some (p.1, score) else none
  let sorted := (scored.mergeSort scoreDesc).take max_results
  sorted.filterMap fun p =>
    (db.getSound p.1).map fun sound =>
      ⟨p.1, sound.filepath, sound.filename, p.2, 0, sound.duration, sound.duration⟩

/-- `SearchEngine::find_similar_with_segments`: coarse prefilter at
`threshold * 0.8` truncated to 20 candidates, per-candidate
`find_best_segment` (decode failures and per-candidate errors dropped),
refine-filter at `threshold`, sort descending, truncate to `max_results`.
`load` models `AudioData::load` (`none` = decode failure). -/
noncomputable def find_similar_with_segments (query_fp : AudioFingerprint)
    (db : DbModel) (load : String → Option AudioData) (threshold : ℝ)
    (max_results : ℕ) : List MatchResult :=
  let scored := db.fingerprints.filterMap fun p =>
    let score := query_fp.similarity p.2
    if score ≥ threshold * 0.8 then some (p.1, score) else none
  let top := (scored.mergeSort scoreDesc).take 20
  let candidates := top.filterMap fun p =>
    (db.getSound p.1).map fun sound => (sound, p.2)
  let results := candidates.filterMap fun c =>
    (load c.1.filepath).bind fun adata => findBestSegmentAudio query_fp adata c.1
  let kept := results.filter fun m => decide (m.score ≥ threshold)
  (kept.mergeSort matchScoreDesc).take max_results

/-- MIDI track events, as far as the exporter emits them (midi/mod.rs). -/
inductive MidiEventKind where
  | tempo (microsPerBeat : ℕ)
  | noteOn (key vel : ℕ)
  | noteOff (key vel : ℕ)
  | endOfTrack
deriving DecidableEq, Repr

/-- A delta-timed track event. -/
structure MidiEvent where
  delta : ℕ
  kind : MidiEventKind
deriving DecidableEq, Repr

/-- `MidiExportConfig` (u32 bpm, u8 base note, u16 ticks per beat). -/
structure MidiExportConfig where
  tempo_bpm : ℕ
  base_note : ℕ
  ticks_per_beat : ℕ

/-- `MidiExportConfig::default()`: 120 bpm, middle C, 480 ticks per beat. -/
def MidiExportConfig.default : MidiExportConfig := ⟨120, 60, 480⟩

/-- Sequences a panic-capable computation over a list: `none` as soon as one
element fails (a Rust panic aborts the whole loop). -/
def optionTraverse {α β : Type} (f : α → Option β) : List α → Option (List β)
  | [] => some []
  | a :: t =>
    match f a, optionTraverse f t with
    | some b, some bs => some (b :: bs)
    | _, _ => none

/-- The track list `export_matches_to_midi` hands to the SMF writer (file I/O and
the byte-level encoder are out of scope).  The outer `none` marks a Rust panic:
the u32 division `60_000_000 / tempo_bpm` with `tempo_bpm = 0`, or the u8
addition `config.base_note + i as u8` overflowing past 255. -/
noncomputable def export_matches_to_midi (ms : List MatchResult)
    (config : MidiExportConfig) :
    Option (Except AudioPaletteError (List (List MidiEvent))) :=
  if ms.isEmpty then some (.error (.MidiError "No matches to export"))
  else if config.tempo_bpm = 0 then none
  else
    let tempo_us := 60000000 / config.tempo_bpm
    let tempo_track : List MidiEvent := [⟨0, .tempo tempo_us⟩, ⟨0, .endOfTrack⟩]
    let ticks_per_second : ℝ :=
      (config.ticks_per_beat : ℝ) * (config.tempo_bpm : ℝ) / 60
    let match_tracks : Option (List (List MidiEvent)) :=
      optionTraverse (fun iv =>
        let i := iv.1
        let m := iv.2
        let start_ticks := f64toU32 (m.match_start * ticks_per_second)
        let duration_ticks :=
          max (f64toU32 ((m.match_end - m.match_start) * ticks_per_second)) 1
        let velocity := min (max (f64toU8 (40 + m.score / 100 * 87)) 40) 127
        if config.base_note + i > 255 then none
        else
          let note := min (config.base_note + i) 127
          some [⟨start_ticks, .noteOn note velocity⟩,
                ⟨duration_ticks, .noteOff note 0⟩,
                ⟨0, .endOfTrack⟩]) ((ms.take 15).enum)
    match_tracks.map fun ts => .ok (tempo_track :: ts)

/- ------------------------------------------------------------------ -/
/- Definitions written from the spec's words, to be compared with the
   definitions translated from the source. -/
/- ------------------------------------------------------------------ -/

/-- Spec (§4.8, claim C1): `actual_hop = max(hop_samples, (len − window_samples) / 50)`
with `hop_samples = window_samples / 4`. -/
def specHopMax (len window_samples : ℕ) : ℕ :=
  max (window_samples / 4) ((len - window_samples) / 50)

/-- Amended hop formula: `(len − window_samples) / 50` when
`len / hop_samples > 50`, `hop_samples` otherwise. -/
def amendedHop (len window_samples : ℕ) : ℕ :=
  if len / (window_samples / 4) > 50 then (len - window_samples) / 50
  else window_samples / 4

/-- Spec framing rule (§4.2, claim C4): starts `0, hop, 2·hop, …` as long as
`start + n_fft ≤ len`. -/
def specFrameStartsIncl (len n_fft hop : ℕ) : List ℕ :=
  (List.range (len + 1)).filter fun k => k % hop = 0 && k + n_fft ≤ len

/-- Spec clamp (claim C6): the value clamped to `[lo, hi]`. -/
noncomputable def specClamp (x lo hi : ℝ) : ℝ := max lo (min x hi)

/-- Spec similarity (claim C6): `((cos(v_a, v_b) + 1) / 2) · 100` clamped to
`[0, 100]`; 0 when either norm is zero; 0 on mismatched lengths. -/
noncomputable def specSimilarity (a b : AudioFingerprint) : ℝ :=
  let va := a.to_vector
  let vb := b.to_vector
  if va.length ≠ vb.length then 0
  else if vecNorm va = 0 ∨ vecNorm vb = 0 then 0
  else specClamp ((vecDot va vb / (vecNorm va * vecNorm vb) + 1) / 2 * 100) 0 100

/-- Spec (claim C9): `start_ticks = round(match_start · ticks_per_beat · bpm / 60)`. -/
noncomputable def specStartTicksRound (m : MatchResult) (config : MidiExportConfig) : ℤ :=
  round (m.match_start * ((config.ticks_per_beat : ℝ) * (config.tempo_bpm : ℝ) / 60))

/-- Amended start ticks: the same quantity under Rust's truncating, saturating
f64→u32 cast instead of rounding. -/
noncomputable def amendedStartTicks (m : MatchResult) (config : MidiExportConfig) : ℕ :=
  f64toU32 (m.match_start * ((config.ticks_per_beat : ℝ) * (config.tempo_bpm : ℝ) / 60))

/-- Amended velocity: `clamp(trunc_u8(40 + (score/100)·87), 40, 127)`, the inner
cast being Rust's truncating, saturating f64→u8 cast. -/
noncomputable def amendedVelocity (m : MatchResult) : ℕ :=
  min (max (f64toU8 (40 + m.score / 100 * 87)) 40) 127

/- ------------------------------------------------------------------ -/
/- Concrete instances used to instantiate the theorems below. -/
/- ------------------------------------------------------------------ -/

/-- A fingerprint with empty MFCC/chroma vectors and zero scalars, carrying only a
duration; its feature vector is the six-entry zero vector. -/
def plainFp (d : ℝ) : AudioFingerprint := ⟨d, 0, [], [], 0, 0, 0, 0, 0, 0, []⟩

/-- Query fingerprint of duration 0.45 s (hits the zero-hop sliding window). -/
noncomputable def qfpC2 : AudioFingerprint := plainFp (9 / 20)

/-- A stored sound of 51 samples at 10 Hz. -/
noncomputable def soundC2 : SoundRecord := ⟨1, "/w.wav", "w.wav", 51 / 10, 10⟩

/-- The corresponding loaded audio: 51 zero samples at 10 Hz. -/
noncomputable def audioC2 : AudioData := AudioData.from_samples (List.replicate 51 0) 10

/-- A match at 0.001 s with score 50 (used against the MIDI rounding claim). -/
noncomputable def mC9 : MatchResult := ⟨1, "/c.wav", "c.wav", 50, 1 / 1000, 1, 5⟩

/-- A match at 0 s with score 100 (MIDI witness input). -/
noncomputable def mW9 : MatchResult := ⟨1, "/w.wav", "w.wav", 100, 0, 1, 1⟩

/-- A stored sound of duration 5 s (search witness input). -/
noncomputable def soundW8 : SoundRecord := ⟨1, "/s.wav", "s.wav", 5, 44100⟩

/-- A one-row database holding `plainFp 1` under id 1. -/
noncomputable def dbW8 : DbModel :=
  ⟨[(1, plainFp 1)], fun i => if i = 1 then some soundW8 else none⟩

/-- The whole-file match `find_similar` produces from `dbW8`. -/
noncomputable def m8 : MatchResult := ⟨1, "/s.wav", "s.wav", 0, 0, 5, 5⟩

/- ------------------------------------------------------------------ -/
/- Helper lemmas. -/
/- ------------------------------------------------------------------ -/

theorem stepByAux_mem (a h : ℕ) :
    ∀ fuel pos k : ℕ, a ≤ pos + fuel * h →
      (k ∈ stepByAux a h fuel pos ↔ (∃ j, k = pos + j * h) ∧ k < a) := by
  intro fuel
  induction fuel with
  | zero =>
    intro pos k hle
    simp only [stepByAux, List.not_mem_nil, false_iff, not_and]
    rintro ⟨j, rfl⟩
    have := Nat.le_add_right pos (j * h)
    omega
  | succ n ih =>
    intro pos k hle
    have hle' : a ≤ pos + h + n * h := by
      have : pos + (n + 1) * h = pos + h + n * h := by ring
      omega
    simp only [stepByAux]
    by_cases hpos : pos < a
    · rw [if_pos hpos]
      simp only [List.mem_cons]
      rw [ih (pos + h) k hle']
      constructor
      · rintro (rfl | ⟨⟨j, rfl⟩, hk⟩)
        · exact ⟨⟨0, by ring⟩, hpos⟩
        · exact ⟨⟨j + 1, by ring⟩, hk⟩
      · rintro ⟨⟨j, rfl⟩, hk⟩
        cases j with
        | zero => left; ring
        | succ j => right; exact ⟨⟨j, by ring⟩, hk⟩
    · rw [if_neg hpos]
      simp only [List.not_mem_nil, false_iff, not_and]
      rintro ⟨j, rfl⟩
      have := Nat.le_add_right pos (j * h)
      omega

theorem mem_rangeStepBy {a h k : ℕ} (hh : 1 ≤ h) :
    k ∈ rangeStepBy a h ↔ h ∣ k ∧ k < a := by
  have hfuel : a ≤ 0 + a * h := by
    have := Nat.mul_le_mul_left a hh
    omega
  rw [rangeStepBy, stepByAux_mem a h a 0 k hfuel]
  constructor
  · rintro ⟨⟨j, rfl⟩, hk⟩
    exact ⟨⟨j, by ring⟩, hk⟩
  · rintro ⟨⟨j, rfl⟩, hk⟩
    exact ⟨⟨j, by ring⟩, hk⟩

theorem rangeStepBy_zero (h : ℕ) : rangeStepBy 0 h = [] := rfl

theorem rangeStepBy_cons (a h : ℕ) (ha : 0 < a) :
    rangeStepBy a h = 0 :: stepByAux a h (a - 1) h := by
  rcases a with _ | n
  · omega
  · simp [rangeStepBy, stepByAux]

theorem wSamples_nine_twentieths : wSamplesOf (9 / 20) 10 = 4 := by
  have h : ⌊(9 / 20 : ℝ) * (10 : ℕ)⌋ = 4 := by norm_num
  rw [wSamplesOf, f64toUsize, h]
  rfl

theorem wSamples_one_quarter : wSamplesOf (1 / 4) 10 = 2 := by
  have h : ⌊(1 / 4 : ℝ) * (10 : ℕ)⌋ = 2 := by norm_num
  rw [wSamplesOf, f64toUsize, h]
  rfl

theorem wSamples_one_eight : wSamplesOf 1 8 = 8 := by
  have h : ⌊(1 : ℝ) * (8 : ℕ)⌋ = 8 := by norm_num
  rw [wSamplesOf, f64toUsize, h]
  rfl

/-- C1 counterexample: a 51-sample file at 10 Hz with a 0.45 s query satisfies the
sliding-window branch conditions and gives `window_samples = 4`, `hop_samples = 1`;
the hop the code actually uses is `(51 - 4) / 50 = 0`, while the claimed
`max(hop_samples, (len - window_samples) / 50)` is 1 — so the used hop is smaller
than `hop_samples`, refuting the claim. -/
theorem c1_counterexample :
    0 < (9 / 20 : ℝ) ∧ (9 / 20 : ℝ) < (51 : ℝ) / 10 ∧
    wSamplesOf (9 / 20) 10 = 4 ∧
    actualHopOf 51 4 = some 0 ∧ specHopMax 51 4 = 1 := by
  exact ⟨by norm_num, by norm_num, wSamples_nine_twentieths, by decide, by decide⟩

/-- C1 (amended): in the sliding-window branch the hop actually used equals
`(len - window_samples) / 50` when `len / hop_samples > 50` and `hop_samples`
otherwise; it is never smaller than
`min(hop_samples, (len - window_samples) / 50)`, but it can be smaller than
`hop_samples`. -/
theorem c1_hop_amended (q_dur : ℝ) (sr len : ℕ) (_h0 : 0 < q_dur)
    (_hlt : q_dur < (len : ℝ) / sr) (hw : 4 ≤ wSamplesOf q_dur sr) :
    actualHopOf len (wSamplesOf q_dur sr) = some (amendedHop len (wSamplesOf q_dur sr)) ∧
    min (wSamplesOf q_dur sr / 4) ((len - wSamplesOf q_dur sr) / 50) ≤
      amendedHop len (wSamplesOf q_dur sr) := by
  have h4 : ¬ wSamplesOf q_dur sr / 4 = 0 := by omega
  constructor
  · rw [actualHopOf, if_neg h4, amendedHop]
  · rw [amendedHop]
    split
    · exact min_le_right _ _
    · exact min_le_left _ _

/-- C1 witness: query duration 1 s, sample rate 8 Hz, 16 samples. -/
theorem c1_hop_amended_witness :
    actualHopOf 16 (wSamplesOf 1 8) = some (amendedHop 16 (wSamplesOf 1 8)) ∧
    min (wSamplesOf 1 8 / 4) ((16 - wSamplesOf 1 8) / 50) ≤ amendedHop 16 (wSamplesOf 1 8) :=
  c1_hop_amended 1 8 16 (by norm_num) (by norm_num)
    (by rw [wSamples_one_eight]; omega)

/-- C3 counterexample: a 0.25 s query against a 100-sample file at 10 Hz satisfies
`0 < duration < file duration`, yet `window_samples = 2`, so
`hop_samples = 2 / 4 = 0` and `audio.samples.len() / hop_samples` divides by
zero (`actualHopOf` returns `none`, the panic marker), refuting the claim. -/
theorem c3_counterexample :
    0 < (1 / 4 : ℝ) ∧ (1 / 4 : ℝ) < (100 : ℝ) / 10 ∧
    wSamplesOf (1 / 4) 10 = 2 ∧ wSamplesOf (1 / 4) 10 / 4 = 0 ∧
    actualHopOf 100 (wSamplesOf (1 / 4) 10) = none := by
  refine ⟨by norm_num, by norm_num, wSamples_one_quarter, ?_, ?_⟩
  · rw [wSamples_one_quarter]
  · rw [wSamples_one_quarter]
    decide

/-- C3 (amended): the hop divisor `hop_samples = window_samples / 4` is nonzero —
so the division `audio.samples.len() / hop_samples` cannot panic — provided
`window_samples = trunc(query_duration · sample_rate) ≥ 4`; for smaller windows
the division panics. -/
theorem c3_hop_nonzero_amended (q_dur : ℝ) (sr len : ℕ)
    (hw : 4 ≤ wSamplesOf q_dur sr) :
    (actualHopOf len (wSamplesOf q_dur sr)).isSome = true := by
  have h4 : ¬ wSamplesOf q_dur sr / 4 = 0 := by omega
  rw [actualHopOf, if_neg h4]
  rfl

/-- C3 witness: query duration 1 s at 8 Hz, 16-sample file. -/
theorem c3_hop_nonzero_amended_witness :
    (actualHopOf 16 (wSamplesOf 1 8)).isSome = true :=
  c3_hop_nonzero_amended 1 8 16 (by rw [wSamples_one_eight]; omega)

/-- C4 counterexample: an input of exactly `n_fft = 2048` samples yields zero
frames in every extractor (the loops run over `start + n_fft < len`), while the
spec's inclusive framing rule `start + n_fft ≤ len` admits the start 0. -/
theorem c4_counterexample :
    (MfccExtractor.new 13 2048).frameStarts 2048 = [] ∧
    (SpectralExtractor.new 2048 512).frameStarts 2048 = [] ∧
    Fingerprinter.default.chromaFrameStarts 2048 = [] ∧
    0 ∈ specFrameStartsIncl 2048 2048 512 := by
  refine ⟨rfl, rfl, rfl, ?_⟩
  rw [specFrameStartsIncl]
  simp [List.mem_filter]

/-- C4 (amended): every framed extractor (MFCC, spectral statistics, chroma)
processes frames at start positions `0, hop, 2·hop, …` for exactly those starts
with `start + n_fft < len(samples)` (strictly); in particular an input of exactly
2048 samples yields zero frames in each extractor. -/
theorem c4_frame_starts_amended (len k : ℕ) :
    (k ∈ (MfccExtractor.new 13 2048).frameStarts len ↔ 512 ∣ k ∧ k + 2048 < len) ∧
    (k ∈ (SpectralExtractor.new 2048 512).frameStarts len ↔ 512 ∣ k ∧ k + 2048 < len) ∧
    (k ∈ Fingerprinter.default.chromaFrameStarts len ↔ 512 ∣ k ∧ k + 2048 < len) := by
  have h1 := @mem_rangeStepBy (len - 2048) 512 k (by norm_num)
  have h2 : (512 ∣ k ∧ k < len - 2048) ↔ (512 ∣ k ∧ k + 2048 < len) := by
    constructor
    · rintro ⟨hd, hlt⟩
      exact ⟨hd, by omega⟩
    · rintro ⟨hd, hlt⟩
      exact ⟨hd, by omega⟩
  exact ⟨h1.trans h2, h1.trans h2, h1.trans h2⟩

theorem segLoop_zero_hop (q : AudioFingerprint) (samples : List ℝ) (sr w : ℕ) :
    ∀ (fuel pos : ℕ) (st : ℝ × ℝ × ℝ), pos + w ≤ samples.length →
      segLoop q samples sr w 0 fuel pos st = none := by
  intro fuel
  induction fuel with
  | zero => intro pos st _; rfl
  | succ n ih =>
    intro pos st h
    rw [segLoop, if_pos h]
    exact ih pos _ h

theorem audioC2_len : audioC2.samples.length = 51 := by
  simp [audioC2, AudioData.from_samples]

theorem audioC2_duration : audioC2.duration = (51 : ℝ) / 10 := by
  simp [audioC2, AudioData.from_samples]

/-- C2 (code bug): on a 51-sample file at 10 Hz with a 0.45 s query — inputs in
the sliding-window branch — the code computes `actual_hop = (51 - 4) / 50 = 0`,
so `pos` never advances and the `while pos + window_samples <= len` loop runs
forever (for every fuel bound the loop is still running); `find_best_segment`
never returns, contradicting the claimed 50-window termination bound. -/
theorem c2_sliding_loop_diverges :
    0 < qfpC2.duration ∧ qfpC2.duration < audioC2.duration ∧
    wSamplesOf qfpC2.duration audioC2.sample_rate = 4 ∧
    actualHopOf audioC2.samples.length (wSamplesOf qfpC2.duration audioC2.sample_rate) =
      some 0 ∧
    (∀ (fuel : ℕ) (st : ℝ × ℝ × ℝ),
      segLoop qfpC2 audioC2.samples audioC2.sample_rate 4 0 fuel 0 st = none) ∧
    findBestSegmentAudio qfpC2 audioC2 soundC2 = none := by
  have hqd : qfpC2.duration = 9 / 20 := rfl
  have hsr : audioC2.sample_rate = 10 := rfl
  have hw : wSamplesOf qfpC2.duration audioC2.sample_rate = 4 := by
    rw [hqd, hsr]; exact wSamples_nine_twentieths
  have hhop : actualHopOf audioC2.samples.length
      (wSamplesOf qfpC2.duration audioC2.sample_rate) = some 0 := by
    rw [audioC2_len, hw]; decide
  have hloop : ∀ (fuel : ℕ) (st : ℝ × ℝ × ℝ),
      segLoop qfpC2 audioC2.samples audioC2.sample_rate 4 0 fuel 0 st = none := by
    intro fuel st
    exact segLoop_zero_hop qfpC2 audioC2.samples audioC2.sample_rate 4 fuel 0 st
      (by rw [audioC2_len]; omega)
  refine ⟨by rw [hqd]; norm_num, by rw [hqd, audioC2_duration]; norm_num, hw, hhop, hloop, ?_⟩
  rw [findBestSegmentAudio]
  rw [if_neg (by rw [hqd]; norm_num)]
  rw [if_neg (by rw [hqd, audioC2_duration]; norm_num)]
  rw [hw]
  have hhop4 : actualHopOf audioC2.samples.length 4 = some 0 := by
    rw [audioC2_len]; decide
  simp only [hhop4, hloop]

theorem mfcc_extract_tooShort (samples : List ℝ) (sr : ℕ) (h : samples.length < 2048) :
    (MfccExtractor.new 13 2048).extract samples sr =
      .error (.FingerprintError "Audio too short for MFCC extraction") := by
  have hn : (MfccExtractor.new 13 2048).n_fft = 2048 := rfl
  rw [MfccExtractor.extract, hn, if_pos h]

theorem mfcc_extract_noFrames (samples : List ℝ) (sr : ℕ) (h : samples.length = 2048) :
    (MfccExtractor.new 13 2048).extract samples sr =
      .error (.FingerprintError "No frames extracted") := by
  have hn : (MfccExtractor.new 13 2048).n_fft = 2048 := rfl
  rw [MfccExtractor.extract, hn, if_neg (by omega)]
  have hstarts : (MfccExtractor.new 13 2048).frameStarts samples.length = [] := by
    rw [MfccExtractor.frameStarts, hn, h]
    rfl
  simp only [hstarts, List.map_nil, List.isEmpty_nil, if_pos]

theorem mfcc_extract_ok (samples : List ℝ) (sr : ℕ) (h : 2048 < samples.length) :
    ∃ r, (MfccExtractor.new 13 2048).extract samples sr = .ok r := by
  have hn : (MfccExtractor.new 13 2048).n_fft = 2048 := rfl
  rw [MfccExtractor.extract, hn, if_neg (by omega)]
  have hstarts : (MfccExtractor.new 13 2048).frameStarts samples.length =
      0 :: stepByAux (samples.length - 2048) 512 (samples.length - 2048 - 1) 512 := by
    rw [MfccExtractor.frameStarts, hn]
    exact rangeStepBy_cons _ _ (by omega)
  rw [hstarts]
  simp only [List.map_cons, List.isEmpty_cons, if_neg]
  exact ⟨_, rfl⟩

/-- C5 counterexample: an input of exactly 2048 samples produces zero frames, and
MFCC extraction fails with `FingerprintError("No frames extracted")` — not the
claimed `"Audio too short…"` message (and not success, which the spec's inclusive
framing rule — one frame at start 0 — would demand). -/
theorem c5_counterexample :
    (MfccExtractor.new 13 2048).extract (List.replicate 2048 (0 : ℝ)) 44100 =
      .error (.FingerprintError "No frames extracted") ∧
    "No frames extracted" ≠ "Audio too short for MFCC extraction" := by
  refine ⟨mfcc_extract_noFrames _ 44100 (by rw [List.length_replicate]), by decide⟩

/-- C5 (amended): with the code's strict framing (`start + n_fft < len`), MFCC
extraction fails exactly on inputs yielding no frames, i.e. `len ≤ 2048` — with
message `"Audio too short for MFCC extraction"` when `len < 2048` and
`"No frames extracted"` when `len = 2048` — and succeeds exactly when
`len > 2048`. -/
theorem c5_mfcc_error_amended (samples : List ℝ) (sr : ℕ) :
    ((MfccExtractor.new 13 2048).extract samples sr =
        .error (.FingerprintError "Audio too short for MFCC extraction") ↔
      samples.length < 2048) ∧
    ((MfccExtractor.new 13 2048).extract samples sr =
        .error (.FingerprintError "No frames extracted") ↔
      samples.length = 2048) ∧
    ((∃ r, (MfccExtractor.new 13 2048).extract samples sr = .ok r) ↔
      2048 < samples.length) := by
  rcases Nat.lt_trichotomy samples.length 2048 with h | h | h
  · rw [mfcc_extract_tooShort samples sr h]
    refine ⟨⟨fun _ => h, fun _ => rfl⟩, ⟨fun he => ?_, fun he => by omega⟩,
      ⟨fun ⟨r, hr⟩ => by exact absurd hr (by simp), fun hgt => by omega⟩⟩
    · exact absurd (Except.error.inj he) (by decide)
  · rw [mfcc_extract_noFrames samples sr h]
    refine ⟨⟨fun he => ?_, fun hlt => by omega⟩, ⟨fun _ => h, fun _ => rfl⟩,
      ⟨fun ⟨r, hr⟩ => by exact absurd hr (by simp), fun hgt => by omega⟩⟩
    · exact absurd (Except.error.inj he) (by decide)
  · obtain ⟨r, hr⟩ := mfcc_extract_ok samples sr h
    rw [hr]
    refine ⟨⟨fun he => by exact absurd he (by simp), fun hlt => by omega⟩,
      ⟨fun he => by exact absurd he (by simp), fun heq => by omega⟩,
      ⟨fun _ => h, fun _ => ⟨r, rfl⟩⟩⟩

theorem vecDot_comm (v1 v2 : List ℝ) : vecDot v1 v2 = vecDot v2 v1 := by
  unfold vecDot
  induction v1 generalizing v2 with
  | nil => cases v2 <;> simp
  | cons a t ih =>
    cases v2 with
    | nil => simp
    | cons b t2 => simp [ih t2, mul_comm]

theorem clamp_forms (x : ℝ) : min (max x 0) 100 = specClamp x 0 100 := by
  rw [specClamp, max_min_distrib_left, max_comm 0 x,
    max_eq_right (by norm_num : (0 : ℝ) ≤ 100)]

/-- C6: `similarity` equals the spec's formula — `((cos + 1)/2)·100` clamped to
`[0, 100]`, with 0 for a zero norm and 0 for mismatched vector lengths — and its
value always lies in `[0, 100]`. -/
theorem c6_similarity_spec_range (a b : AudioFingerprint) :
    a.similarity b = specSimilarity a b ∧
    0 ≤ a.similarity b ∧ a.similarity b ≤ 100 := by
  refine ⟨?_, ?_, ?_⟩
  · simp only [AudioFingerprint.similarity, specSimilarity]
    split_ifs
    · rfl
    · rfl
    · exact clamp_forms _
  · simp only [AudioFingerprint.similarity]
    split_ifs
    · exact le_refl 0
    · exact le_refl 0
    · exact le_min (le_max_right _ _) (by norm_num)
  · simp only [AudioFingerprint.similarity]
    split_ifs
    · norm_num
    · norm_num
    · exact min_le_right _ _

/-- C7: similarity is symmetric — `sim(A, B) = sim(B, A)` (the real-valued model
mirrors the bitwise claim: the two computations differ only in the order of
multiplications, and IEEE-754 multiplication is commutative). -/
theorem c7_similarity_symm (a b : AudioFingerprint) : a.similarity b = b.similarity a := by
  simp only [AudioFingerprint.similarity]
  by_cases hlen : a.to_vector.length = b.to_vector.length
  · have h1 : ¬a.to_vector.length ≠ b.to_vector.length := fun h => h hlen
    have h2 : ¬b.to_vector.length ≠ a.to_vector.length := fun h => h hlen.symm
    rw [if_neg h1, if_neg h2]
    by_cases hn : vecNorm a.to_vector = 0 ∨ vecNorm b.to_vector = 0
    · rw [if_pos hn, if_pos (Or.symm hn)]
    · rw [if_neg hn, if_neg (fun h => hn (Or.symm h))]
      rw [vecDot_comm, mul_comm (vecNorm a.to_vector) (vecNorm b.to_vector)]
  · rw [if_pos hlen, if_pos (fun h => hlen h.symm)]

theorem foldl_preserve {α β : Type} (P : β → Prop) (f : β → α → β) :
    ∀ (l : List α) (acc : β), (∀ b a, a ∈ l → P b → P (f b a)) → P acc →
      P (l.foldl f acc) := by
  intro l
  induction l with
  | nil => intro acc _ hacc; exact hacc
  | cons x t ih =>
    intro acc hstep hacc
    exact ih (f acc x) (fun b a ha hb => hstep b a (List.mem_cons_of_mem x ha) hb)
      (hstep acc x (List.mem_cons_self x t) hacc)

theorem updateAdd_length (l : List ℝ) (j : ℕ) (v : ℝ) :
    (updateAdd l j v).length = l.length := by
  induction l generalizing j with
  | nil => rfl
  | cons x xs ih =>
    cases j with
    | zero => rfl
    | succ n => simp [updateAdd, ih n]

theorem updateAdd_nonneg : ∀ (l : List ℝ) (j : ℕ) (v : ℝ), (∀ x ∈ l, 0 ≤ x) →
    0 ≤ v → ∀ x ∈ updateAdd l j v, 0 ≤ x := by
  intro l
  induction l with
  | nil => intro j v _ _ x hx; exact absurd hx (List.not_mem_nil x)
  | cons y ys ih =>
    intro j v hl hv x hx
    cases j with
    | zero =>
      rcases List.mem_cons.mp hx with rfl | hx
      · exact add_nonneg (hl y (List.mem_cons_self y ys)) hv
      · exact hl x (List.mem_cons_of_mem y hx)
    | succ n =>
      rcases List.mem_cons.mp hx with rfl | hx
      · exact hl x (List.mem_cons_self x ys)
      · exact ih n v (fun z hz => hl z (List.mem_cons_of_mem y hz)) hv x hx

theorem foldlMax_init (l : List ℝ) : ∀ a : ℝ, a ≤ l.foldl max a := by
  induction l with
  | nil => intro a; exact le_refl a
  | cons x t ih => intro a; exact le_trans (le_max_left a x) (ih (max a x))

theorem foldlMax_mem (l : List ℝ) : ∀ (a : ℝ) (x : ℝ), x ∈ l → x ≤ l.foldl max a := by
  induction l with
  | nil => intro a x hx; exact absurd hx (List.not_mem_nil x)
  | cons y t ih =>
    intro a x hx
    rcases List.mem_cons.mp hx with rfl | hx
    · exact le_trans (le_max_right a x) (foldlMax_init t (max a x))
    · exact ih (max a y) x hx

theorem foldlMax_attained (l : List ℝ) : ∀ a : ℝ, l.foldl max a = a ∨ l.foldl max a ∈ l := by
  induction l with
  | nil => intro a; left; rfl
  | cons x t ih =>
    intro a
    rcases ih (max a x) with h | h
    · rcases le_total a x with hax | hax
      · right
        rw [List.foldl_cons, h, max_eq_right hax]
        exact List.mem_cons_self x t
      · left
        rw [List.foldl_cons, h, max_eq_left hax]
    · right
      exact List.mem_cons_of_mem x h

theorem foldlMax_le (l : List ℝ) : ∀ a b : ℝ, a ≤ b → (∀ x ∈ l, x ≤ b) →
    l.foldl max a ≤ b := by
  induction l with
  | nil => intro a b hab _; exact hab
  | cons x t ih =>
    intro a b hab hl
    exact ih (max a x) b (max_le hab (hl x (List.mem_cons_self x t)))
      (fun z hz => hl z (List.mem_cons_of_mem x hz))

theorem chromaAccum_shape (fp : Fingerprinter) (samples : List ℝ) (sr : ℕ) :
    (fp.chromaAccum samples sr).length = 12 ∧ ∀ x ∈ fp.chromaAccum samples sr, 0 ≤ x := by
  rw [Fingerprinter.chromaAccum]
  apply foldl_preserve (fun bins : List ℝ => bins.length = 12 ∧ ∀ x ∈ bins, 0 ≤ x)
  · intro b start _ hb
    apply foldl_preserve (fun bins : List ℝ => bins.length = 12 ∧ ∀ x ∈ bins, 0 ≤ x)
    · intro b2 i _ hb2
      dsimp only
      split
      · exact ⟨by rw [updateAdd_length, hb2.1],
          updateAdd_nonneg _ _ _ hb2.2 (Real.sqrt_nonneg _)⟩
      · exact hb2
    · exact hb
  · exact ⟨List.length_replicate 12 0, fun x hx => le_of_eq (List.eq_of_mem_replicate hx).symm⟩

/-- C10: `compute_chroma` returns a 12-element vector that is either all zeros or
has maximum element exactly 1 (the code folds `max` from 0 over the bins), for
every sample buffer and sample rate; inputs shorter than `n_fft = 2048` yield all
zeros. -/
theorem c10_chroma_normalization (samples : List ℝ) (sr : ℕ) :
    (Fingerprinter.default.compute_chroma samples sr = List.replicate 12 0 ∨
      (Fingerprinter.default.compute_chroma samples sr).foldl max 0 = 1) ∧
    (samples.length < 2048 →
      Fingerprinter.default.compute_chroma samples sr = List.replicate 12 0) := by
  have hn : Fingerprinter.default.n_fft = 2048 := rfl
  constructor
  · rw [Fingerprinter.compute_chroma, hn]
    by_cases hlen : samples.length < 2048
    · rw [if_pos hlen]
      left
      rfl
    · rw [if_neg hlen]
      by_cases hst : (Fingerprinter.default.chromaFrameStarts samples.length).length > 0
      · rw [if_pos hst]
        obtain ⟨hl12, hpos⟩ := chromaAccum_shape Fingerprinter.default samples sr
        by_cases hmx : (Fingerprinter.default.chromaAccum samples sr).foldl max 0 > 0
        · rw [if_pos hmx]
          right
          set mx := (Fingerprinter.default.chromaAccum samples sr).foldl max 0 with hmxdef
          apply le_antisymm
          · apply foldlMax_le
            · norm_num
            · intro x hx
              obtain ⟨c, hc, rfl⟩ := List.mem_map.mp hx
              exact div_le_one_of_le₀ (foldlMax_mem _ 0 c hc) (le_of_lt hmx)
          · rcases foldlMax_attained (Fingerprinter.default.chromaAccum samples sr) 0 with
              h | h
            · rw [← hmxdef] at h
              exact absurd h (by intro he; rw [he] at hmx; exact lt_irrefl 0 hmx)
            · have h1 : mx / mx ∈
                  (Fingerprinter.default.chromaAccum samples sr).map (fun c => c / mx) :=
                List.mem_map.mpr ⟨mx, h, rfl⟩
              have h2 := foldlMax_mem _ 0 _ h1
              rwa [div_self (ne_of_gt hmx)] at h2
        · rw [if_neg hmx]
          left
          apply List.eq_replicate_iff.mpr
          refine ⟨hl12, fun b hb => ?_⟩
          have h1 := hpos b hb
          have h2 := foldlMax_mem _ 0 b hb
          have h3 : (Fingerprinter.default.chromaAccum samples sr).foldl max 0 ≤ 0 :=
            not_lt.mp hmx
          linarith
      · rw [if_neg hst]
        left
        have hnil : Fingerprinter.default.chromaFrameStarts samples.length = [] :=
          List.length_eq_zero.mp (by omega)
        rw [Fingerprinter.chromaAccum, hnil]
        rfl
  · intro h
    rw [Fingerprinter.compute_chroma, hn, if_pos h]

/-- C10 witness: the empty buffer is shorter than `n_fft` and yields all zeros. -/
theorem c10_chroma_normalization_witness :
    ([] : List ℝ).length < 2048 ∧
    Fingerprinter.default.compute_chroma [] 44100 = List.replicate 12 0 :=
  ⟨by norm_num, (c10_chroma_normalization [] 44100).2 (by norm_num)⟩

theorem segLoop_bounds (q : AudioFingerprint) (samples : List ℝ) (sr w hop : ℕ)
    (hsr : 1 ≤ sr) :
    ∀ (fuel pos : ℕ) (st r : ℝ × ℝ × ℝ),
      0 ≤ st.2.1 → st.2.1 ≤ st.2.2 → st.2.2 ≤ (samples.length : ℝ) / sr →
      segLoop q samples sr w hop fuel pos st = some r →
      0 ≤ r.2.1 ∧ r.2.1 ≤ r.2.2 ∧ r.2.2 ≤ (samples.length : ℝ) / sr := by
  have hsr' : (0 : ℝ) < sr := by exact_mod_cast hsr
  intro fuel
  induction fuel with
  | zero =>
    intro pos st r _ _ _ h
    exact absurd h (by rw [segLoop]; exact Option.noConfusion)
  | succ n ih =>
    intro pos st r h1 h2 h3 h
    rw [segLoop] at h
    by_cases hc : pos + w ≤ samples.length
    · rw [if_pos hc] at h
      simp only at h
      rcases hE : Fingerprinter.default.extract_from_samples
          ((samples.drop pos).take w) sr with e | fp
      · simp only [hE] at h
        exact ih (pos + hop) st r h1 h2 h3 h
      · simp only [hE] at h
        by_cases hsc : q.similarity fp > st.1
        · rw [if_pos hsc] at h
          refine ih (pos + hop) _ r ?_ ?_ ?_ h
          · exact div_nonneg (Nat.cast_nonneg pos) (le_of_lt hsr')
          · exact div_le_div_of_nonneg_right (by exact_mod_cast Nat.le_add_right pos w)
              (le_of_lt hsr')
          · exact div_le_div_of_nonneg_right (by exact_mod_cast hc) (le_of_lt hsr')
        · rw [if_neg hsc] at h
          exact ih (pos + hop) st r h1 h2 h3 h
    · rw [if_neg hc] at h
      obtain rfl : st = r := Option.some.inj h
      exact ⟨h1, h2, h3⟩

theorem findBestSegment_bounds (q : AudioFingerprint) (adata : AudioData)
    (sound : SoundRecord) (m : MatchResult) (hsr : 1 ≤ adata.sample_rate)
    (hdur : adata.duration = (adata.samples.length : ℝ) / adata.sample_rate)
    (hsound : 0 ≤ sound.duration)
    (h : findBestSegmentAudio q adata sound = some m) :
    0 ≤ m.match_start ∧ m.match_start ≤ m.match_end ∧ m.match_end ≤ m.file_duration := by
  have hdur0 : 0 ≤ adata.duration := by
    rw [hdur]
    exact div_nonneg (Nat.cast_nonneg _) (Nat.cast_nonneg _)
  rw [findBestSegmentAudio] at h
  by_cases h0 : q.duration ≤ 0
  · rw [if_pos h0] at h
    obtain rfl := Option.some.inj h
    exact ⟨le_refl 0, hsound, le_refl _⟩
  · rw [if_neg h0] at h
    by_cases h1 : q.duration ≥ adata.duration
    · rw [if_pos h1] at h
      rcases hE : Fingerprinter.default.extract adata with e | fp
      · rw [hE] at h
        exact absurd h Option.noConfusion
      · rw [hE] at h
        simp only at h
        obtain rfl := Option.some.inj h
        exact ⟨le_refl 0, hdur0, le_refl _⟩
    · rw [if_neg h1] at h
      simp only at h
      rcases hhop : actualHopOf adata.samples.length
          (wSamplesOf q.duration adata.sample_rate) with _ | hop
      · rw [hhop] at h
        exact absurd h Option.noConfusion
      · rw [hhop] at h
        simp only at h
        rcases hloop : segLoop q adata.samples adata.sample_rate
            (wSamplesOf q.duration adata.sample_rate) hop
            (adata.samples.length + 2) 0 (0, 0, q.duration) with _ | st
        · rw [hloop] at h
          exact absurd h Option.noConfusion
        · rw [hloop] at h
          obtain ⟨bs, bst, ben⟩ := st
          simp only at h
          obtain rfl := Option.some.inj h
          have hinv := segLoop_bounds q adata.samples adata.sample_rate
            (wSamplesOf q.duration adata.sample_rate) hop hsr
            (adata.samples.length + 2) 0 (0, 0, q.duration) (bs, bst, ben)
            (le_refl 0) (le_of_lt (not_le.mp h0))
            (by rw [← hdur]; exact le_of_lt (not_le.mp h1)) hloop
          refine ⟨hinv.1, hinv.2.1, ?_⟩
          rw [hdur]
          exact hinv.2.2

/-- C8: every `MatchResult` returned by `find_similar` and by
`find_similar_with_segments` satisfies
`0 ≤ match_start ≤ match_end ≤ file_duration`, for every database contents with
every stored sound's duration ≥ 0, every threshold and `max_results`, and every
loader whose audio carries a positive sample rate and the
`duration = len / sample_rate` relation `AudioData::load` establishes. -/
theorem c8_segment_bounds (q : AudioFingerprint) (db : DbModel)
    (load : String → Option AudioData) (threshold : ℝ) (max_results : ℕ)
    (hdb : ∀ i s, db.getSound i = some s → 0 ≤ s.duration)
    (hload : ∀ p a, load p = some a →
      1 ≤ a.sample_rate ∧ a.duration = (a.samples.length : ℝ) / a.sample_rate) :
    (∀ m ∈ find_similar q db threshold max_results,
      0 ≤ m.match_start ∧ m.match_start ≤ m.match_end ∧ m.match_end ≤ m.file_duration) ∧
    (∀ m ∈ find_similar_with_segments q db load threshold max_results,
      0 ≤ m.match_start ∧ m.match_start ≤ m.match_end ∧ m.match_end ≤ m.file_duration) := by
  constructor
  · intro m hm
    simp only [find_similar] at hm
    obtain ⟨p, _, heq⟩ := List.mem_filterMap.mp hm
    obtain ⟨sound, hs, rfl⟩ := Option.map_eq_some'.mp heq
    exact ⟨le_refl 0, hdb p.1 sound hs, le_refl _⟩
  · intro m hm
    simp only [find_similar_with_segments] at hm
    have hm1 := List.mem_mergeSort.mp (List.take_subset _ _ hm)
    have hm2 := List.mem_filter.mp hm1
    obtain ⟨c, hc, hbind⟩ := List.mem_filterMap.mp hm2.1
    obtain ⟨adata, hl, hseg⟩ := Option.bind_eq_some.mp hbind
    obtain ⟨p, _, hcand⟩ := List.mem_filterMap.mp hc
    obtain ⟨sound, hs, rfl⟩ := Option.map_eq_some'.mp hcand
    obtain ⟨hsr, hdur⟩ := hload sound.filepath adata hl
    exact findBestSegment_bounds q adata sound m hsr hdur (hdb p.1 sound hs) hseg

theorem plainFp_to_vector (d : ℝ) : (plainFp d).to_vector = [0, 0, 0, 0, 0, 0] := by
  simp [plainFp, AudioFingerprint.to_vector]

theorem plainFp_similarity_self (d : ℝ) : (plainFp d).similarity (plainFp d) = 0 := by
  rw [AudioFingerprint.similarity]
  simp only [plainFp_to_vector]
  rw [if_neg (by norm_num)]
  rw [if_pos]
  left
  rw [vecNorm]
  norm_num

theorem find_similar_witness_eval : find_similar (plainFp 1) dbW8 0 1 = [m8] := by
  rw [find_similar]
  have h1 : dbW8.fingerprints = [(1, plainFp 1)] := rfl
  rw [h1]
  simp only [List.filterMap_cons, List.filterMap_nil, plainFp_similarity_self,
    ge_iff_le, le_refl, if_pos]
  rw [List.mergeSort_singleton]
  simp only [List.take_succ_cons, List.take_nil, List.filterMap_cons, List.filterMap_nil]
  have h2 : dbW8.getSound 1 = some soundW8 := rfl
  rw [h2]
  rfl

/-- C8 witness: the single whole-file match from the one-row database `dbW8`
satisfies the segment bounds. -/
theorem c8_segment_bounds_witness :
    0 ≤ m8.match_start ∧ m8.match_start ≤ m8.match_end ∧ m8.match_end ≤ m8.file_duration := by
  have h := c8_segment_bounds (plainFp 1) dbW8 (fun _ => none) 0 1
    (by
      intro i s hs
      have : dbW8.getSound i = if i = 1 then some soundW8 else none := rfl
      rw [this] at hs
      by_cases hi : i = 1
      · rw [if_pos hi] at hs
        obtain rfl := Option.some.inj hs
        norm_num [soundW8]
      · rw [if_neg hi] at hs
        exact absurd hs Option.noConfusion)
    (by intro p a ha; exact absurd ha Option.noConfusion)
  exact h.1 m8 (by rw [find_similar_witness_eval]; exact List.mem_singleton.mpr rfl)

theorem optionTraverse_map {α β : Type} (f : α → Option β) (g : α → β) :
    ∀ l : List α, (∀ x ∈ l, f x = some (g x)) → optionTraverse f l = some (l.map g) := by
  intro l
  induction l with
  | nil => intro _; rfl
  | cons a t ih =>
    intro h
    rw [optionTraverse, h a (List.mem_cons_self a t),
      ih (fun x hx => h x (List.mem_cons_of_mem a hx))]
    rfl

theorem export_ok_of_no_overflow (ms : List MatchResult) (config : MidiExportConfig)
    (hne : ms.isEmpty = false) (hbpm : ¬config.tempo_bpm = 0)
    (hnote : ∀ j, j < min 15 ms.length → config.base_note + j ≤ 255) :
    export_matches_to_midi ms config = some (.ok
      ([⟨0, .tempo (60000000 / config.tempo_bpm)⟩, ⟨0, .endOfTrack⟩] ::
        ((ms.take 15).enum).map (fun iv =>
          [⟨amendedStartTicks iv.2 config,
            .noteOn (min (config.base_note + iv.1) 127) (amendedVelocity iv.2)⟩,
           ⟨max (f64toU32 ((iv.2.match_end - iv.2.match_start) *
              ((config.ticks_per_beat : ℝ) * (config.tempo_bpm : ℝ) / 60))) 1,
            .noteOff (min (config.base_note + iv.1) 127) 0⟩,
           ⟨0, .endOfTrack⟩]))) := by
  rw [export_matches_to_midi, if_neg (by rw [hne]; exact Bool.false_ne_true),
    if_neg hbpm]
  simp only
  rw [optionTraverse_map _ (fun iv : ℕ × MatchResult =>
      [⟨amendedStartTicks iv.2 config,
        .noteOn (min (config.base_note + iv.1) 127) (amendedVelocity iv.2)⟩,
       ⟨max (f64toU32 ((iv.2.match_end - iv.2.match_start) *
          ((config.ticks_per_beat : ℝ) * (config.tempo_bpm : ℝ) / 60))) 1,
        .noteOff (min (config.base_note + iv.1) 127) 0⟩,
       (⟨0, .endOfTrack⟩ : MidiEvent)]) ((ms.take 15).enum) ?_]
  · rfl
  · rintro ⟨j, m'⟩ hmem
    have hj : j < min 15 ms.length := by
      have h1 := List.mem_enum_iff_getElem?.mp hmem
      have h2 : j < (ms.take 15).length := by
        by_contra hge
        rw [List.getElem?_eq_none (by omega)] at h1
        exact Option.noConfusion h1
      rwa [List.length_take] at h2
    simp only
    rw [if_neg (by have := hnote j hj; omega)]
    rfl

theorem default_tps :
    ((MidiExportConfig.default.ticks_per_beat : ℝ) *
      (MidiExportConfig.default.tempo_bpm : ℝ) / 60) = 960 := by
  have h1 : MidiExportConfig.default.ticks_per_beat = 480 := rfl
  have h2 : MidiExportConfig.default.tempo_bpm = 120 := rfl
  rw [h1, h2]
  norm_num

theorem c9_eval : export_matches_to_midi [mC9] MidiExportConfig.default =
    some (.ok [[⟨0, .tempo 500000⟩, ⟨0, .endOfTrack⟩],
      [⟨0, .noteOn 60 83⟩, ⟨959, .noteOff 60 0⟩, ⟨0, .endOfTrack⟩]]) := by
  rw [export_ok_of_no_overflow [mC9] MidiExportConfig.default rfl (by decide)
    (by
      intro j hj
      have h1 : min 15 [mC9].length = 1 := rfl
      rw [h1] at hj
      have h2 : MidiExportConfig.default.base_note = 60 := rfl
      rw [h2]
      omega)]
  have hst : amendedStartTicks mC9 MidiExportConfig.default = 0 := by
    rw [amendedStartTicks, f64toU32, default_tps]
    have h1 : mC9.match_start = 1 / 1000 := rfl
    rw [h1]
    have h2 : ⌊(1 / 1000 : ℝ) * 960⌋ = 0 := by norm_num
    rw [h2]
    rfl
  have hvel : amendedVelocity mC9 = 83 := by
    rw [amendedVelocity, f64toU8]
    have h1 : mC9.score = 50 := rfl
    rw [h1]
    have h2 : ⌊(40 : ℝ) + 50 / 100 * 87⌋ = 83 := by norm_num
    rw [h2]
    rfl
  have hdur : f64toU32 ((mC9.match_end - mC9.match_start) *
      ((MidiExportConfig.default.ticks_per_beat : ℝ) *
        (MidiExportConfig.default.tempo_bpm : ℝ) / 60)) = 959 := by
    rw [f64toU32, default_tps]
    have h1 : mC9.match_end = 1 := rfl
    have h2 : mC9.match_start = 1 / 1000 := rfl
    rw [h1, h2]
    have h4 : ⌊((1 : ℝ) - 1 / 1000) * 960⌋ = 959 := by norm_num
    rw [h4]
    rfl
  have henum : (([mC9].take 15).enum) = [(0, mC9)] := rfl
  rw [henum, List.map_cons, List.map_nil]
  simp only
  rw [hst, hvel, hdur]
  rfl

/-- C9 counterexample: for the match `(start = 0.001 s, score = 50)` under the
default config (bpm 120, base note 60, 480 ticks/beat), the emitted NoteOn has
delta 0 and velocity 83, while the claimed `round(match_start·tpb·bpm/60)` is 1
and the claimed `clamp(40 + (score/100)·87, 40, 127)` is 83.5 — the code
truncates instead of rounding. -/
theorem c9_counterexample :
    export_matches_to_midi [mC9] MidiExportConfig.default =
      some (.ok [[⟨0, .tempo 500000⟩, ⟨0, .endOfTrack⟩],
        [⟨0, .noteOn 60 83⟩, ⟨959, .noteOff 60 0⟩, ⟨0, .endOfTrack⟩]]) ∧
    specStartTicksRound mC9 MidiExportConfig.default = 1 ∧ (1 : ℤ) ≠ 0 ∧
    specClamp (40 + mC9.score / 100 * 87) 40 127 = 167 / 2 ∧ (167 / 2 : ℝ) ≠ 83 := by
  refine ⟨c9_eval, ?_, by decide, ?_, by norm_num⟩
  · rw [specStartTicksRound, default_tps]
    have h1 : mC9.match_start = 1 / 1000 := rfl
    rw [h1]
    norm_num [round_eq]
  · rw [specClamp]
    have h1 : mC9.score = 50 := rfl
    rw [h1]
    norm_num

/-- C9 (amended): exporting fails with `MidiError("No matches to export")` exactly
when the match list is empty; otherwise — provided `bpm ≥ 1` (at `bpm = 0` the
tempo division panics) and `base_note + i ≤ 255` for every emitted track (a u8
overflow is a Rust program error) — match `i` (0-based, first 15) emits a NoteOn
with `start_ticks = trunc(match_start · ticks_per_beat · bpm / 60)` (saturating
f64→u32 cast), `key = min(base_note + i, 127)`, and
`velocity = clamp(trunc_u8(40 + (score/100)·87), 40, 127)`. -/
theorem c9_midi_amended (ms : List MatchResult) (config : MidiExportConfig)
    (hbpm : 1 ≤ config.tempo_bpm)
    (hnote : ∀ j, j < min 15 ms.length → config.base_note + j ≤ 255) :
    (ms.isEmpty = true →
      export_matches_to_midi ms config =
        some (.error (.MidiError "No matches to export"))) ∧
    (∀ i m, i < 15 → ms[i]? = some m →
      ∃ ts, export_matches_to_midi ms config = some (.ok ts) ∧
        ts[i + 1]? = some
          [⟨amendedStartTicks m config,
            .noteOn (min (config.base_note + i) 127) (amendedVelocity m)⟩,
           ⟨max (f64toU32 ((m.match_end - m.match_start) *
              ((config.ticks_per_beat : ℝ) * (config.tempo_bpm : ℝ) / 60))) 1,
            .noteOff (min (config.base_note + i) 127) 0⟩,
           ⟨0, .endOfTrack⟩]) := by
  constructor
  · intro he
    rw [export_matches_to_midi, if_pos he]
  · intro i m hi15 hm
    have hne : ms.isEmpty = false := by
      cases ms with
      | nil => exact absurd hm Option.noConfusion
      | cons x t => rfl
    refine ⟨_, export_ok_of_no_overflow ms config hne (by omega) hnote, ?_⟩
    rw [List.getElem?_cons_succ, List.getElem?_map, List.getElem?_enum]
    have htake : (ms.take 15)[i]? = some m := by
      rw [List.getElem?_take, if_pos hi15]
      exact hm
    rw [htake]
    rfl

/-- C9 witness: one match with score 100 at start 0 under the default config. -/
theorem c9_midi_amended_witness :
    ∃ ts, export_matches_to_midi [mW9] MidiExportConfig.default = some (.ok ts) ∧
      ts[1]? = some
        [⟨amendedStartTicks mW9 MidiExportConfig.default,
          .noteOn (min (MidiExportConfig.default.base_note + 0) 127)
            (amendedVelocity mW9)⟩,
         ⟨max (f64toU32 ((mW9.match_end - mW9.match_start) *
            ((MidiExportConfig.default.ticks_per_beat : ℝ) *
              (MidiExportConfig.default.tempo_bpm : ℝ) / 60))) 1,
          .noteOff (min (MidiExportConfig.default.base_note + 0) 127) 0⟩,
         ⟨0, .endOfTrack⟩] :=
  (c9_midi_amended [mW9] MidiExportConfig.default (by decide)
    (by
      intro j hj
      have h1 : min 15 [mW9].length = 1 := rfl
      rw [h1] at hj
      have h2 : MidiExportConfig.default.base_note = 60 := rfl
      rw [h2]
      omega)).2 0 mW9 (by norm_num) rfl

end StemPlayer
